import Mathlib

/-!
# TaskBoard: lane classification and status transitions

A shallow embedding of `client/src/components/TaskBoard.jsx`: the lane filter
`getTasksByStatus`, the two transition handlers `handleMove` and
`handleDragEnd`, and the "Move to" buttons of a task card.

Side effects of the handlers (toasts and dispatched store actions) are made
explicit as the list of effects a call produces, in program order.
-/

namespace TaskBoard

/-! ## Strings -/

/-- `String.prototype.toLowerCase` on the Basic Latin range: `A`..`Z` are
mapped to `a`..`z`, every other character is kept. -/
def toLowerCase (s : String) : String :=
  ⟨s.data.map Char.toLower⟩

/-- Replace the first occurrence of `pat` in a character list by `rep`; the
list is returned as it is when `pat` does not occur. -/
def replaceFirst (pat rep : List Char) : List Char → List Char
  | [] => if pat = [] then rep else []
  | c :: cs =>
    if pat.isPrefixOf (c :: cs) then rep ++ (c :: cs).drop pat.length
    else c :: replaceFirst pat rep cs

/-- `String.prototype.replace` with a string pattern: only the first
occurrence of the pattern is replaced. (The replacement strings used by the
component contain no `$` pattern.) -/
def replace (s pat rep : String) : String :=
  ⟨replaceFirst pat.data rep.data s.data⟩

/-! ## Data model -/

/-- A task object as handed to the component: its own properties in
insertion order. Property values are strings; a property that is missing
reads as `undefined`, modelled by `none`. -/
structure Task where
  props : List (String × String)
  deriving DecidableEq, Repr

/-- Property read `task[key]`. -/
def Task.get (task : Task) (key : String) : Option String :=
  task.props.lookup key

/-- Property read `task.status`. -/
def Task.status (task : Task) : Option String :=
  task.get "status"

/-- Property read `task._id`. -/
def Task._id (task : Task) : Option String :=
  task.get "_id"

/-- Property write on a property list: an existing key keeps its position
and takes the new value, a new key is appended. -/
def setProp (key value : String) : List (String × String) → List (String × String)
  | [] => [(key, value)]
  | (k, v) :: rest =>
    if k = key then (key, value) :: rest else (k, v) :: setProp key value rest

/-- The object literal `{ ...task, status: newStatus }`. -/
def Task.withStatus (task : Task) (newStatus : String) : Task :=
  ⟨setProp "status" newStatus task.props⟩

/-- The fixed lanes, `statusColumns`. -/
def statusColumns : List String := ["To Do", "In Progress", "Done"]

/-- A toast shown to the user. The component itself only raises `info` and
`success`; `failure` is the third call of the notification sink. -/
inductive Notification where
  | info (message : String)
  | success (message : String)
  | failure (message : String)
  deriving DecidableEq, Repr

/-- The action built by `updateTask(id, updates, token, onSuccess)`. The
completion callback is represented by the notifications it raises when it
is invoked. -/
structure UpdateTask where
  id : Option String
  updates : Task
  token : String
  onSuccess : List Notification
  deriving DecidableEq, Repr

/-- One observable effect of a handler call. -/
inductive Effect where
  | toast (n : Notification)
  | dispatch (action : UpdateTask)
  deriving DecidableEq, Repr

/-- The store actions among a list of effects, in order. -/
def mutations : List Effect → List UpdateTask
  | [] => []
  | Effect.dispatch a :: es => a :: mutations es
  | Effect.toast _ :: es => mutations es

/-- The toasts among a list of effects, in order. -/
def notifications : List Effect → List Notification
  | [] => []
  | Effect.toast n :: es => n :: notifications es
  | Effect.dispatch _ :: es => notifications es

/-- The `over` entry of a drag-end event: the droppable under the pointer. -/
structure Over where
  id : String
  deriving DecidableEq, Repr

/-- The `active` entry of a drag-end event; `task` is
`active.data.current.task`. -/
structure Active where
  task : Task
  deriving DecidableEq, Repr

/-- A drag-end event; an entry that is `null` is `none`. -/
structure DragEndEvent where
  active : Option Active
  over : Option Over
  deriving DecidableEq, Repr

/-! ## The component -/

/-- The expression `x.toLowerCase().replace(" ", "")` that `getTasksByStatus`
applies to both sides of its comparison. -/
def normalizeStatus (s : String) : String :=
  replace (toLowerCase s) " " ""

/-- The filter predicate of `getTasksByStatus`. With `?.`, a missing status
makes the left-hand side `undefined`, which is not `===` to a string. -/
def matchesStatus (status : String) (task : Task) : Bool :=
  match task.status with
  | none => false
  | some s => normalizeStatus s == normalizeStatus status

/-- `getTasksByStatus(status)` over the `tasks` prop. -/
def getTasksByStatus (tasks : List Task) (status : String) : List Task :=
  tasks.filter (matchesStatus status)

/-- `handleMove(task, newStatus)`; `token` is the auth token read from the
store. -/
def handleMove (token : String) (task : Task) (newStatus : String) : List Effect :=
  if task.status = some newStatus then
    [Effect.toast (Notification.info ("Task is already in '" ++ newStatus ++ "'"))]
  else
    [Effect.dispatch
      { id := task._id
        updates := task.withStatus newStatus
        token := token
        onSuccess := [Notification.success ("Moved to '" ++ newStatus ++ "' successfully")] }]

/-- `handleDragEnd(event)`. -/
def handleDragEnd (token : String) (event : DragEndEvent) : List Effect :=
  match event.over, event.active with
  | some over, some active =>
    if active.task.status ≠ some over.id then handleMove token active.task over.id
    else []
  | _, _ => []

/-- The destinations of the "Move to" buttons on the card of `task`:
`statusColumns.filter((s) => s !== task.status)`. Clicking the button for
`s` calls `handleMove(task, s)`. -/
def moveTargets (task : Task) : List String :=
  statusColumns.filter (fun s => decide (some s ≠ task.status))

/-- The normalization as the specification words it, for comparison with
`normalizeStatus`: lower-case, then remove every whitespace character. -/
def normalizeAllWhitespace (s : String) : String :=
  ⟨(toLowerCase s).data.filter (fun c => !c.isWhitespace)⟩

/-- The outcome the task store reports for one update. -/
inductive StoreOutcome where
  | success
  | failure (reason : String)
  deriving DecidableEq, Repr

/-- Modelled from the spec: the task store behind `updateTask`
(`../store/actions/taskActions`, not part of the component file). It resolves
a dispatched update with an outcome; on success the completion callback runs,
on failure one failure notification described by the store's error is
raised and the callback is not run. -/
def updateStatus (action : UpdateTask) : StoreOutcome → List Notification
  | StoreOutcome.success => action.onSuccess
  | StoreOutcome.failure reason => [Notification.failure reason]

/-- Every notification the user sees for one `handleMove` call whose
dispatched updates all resolve with `outcome`: the toasts raised at dispatch
time followed by those raised when the store resolves. -/
def moveNotifications (token : String) (task : Task) (newStatus : String)
    (outcome : StoreOutcome) : List Notification :=
  notifications (handleMove token task newStatus) ++
    (mutations (handleMove token task newStatus)).flatMap (fun a => updateStatus a outcome)

/-- Is the notification a failure notification. -/
def Notification.isFailure : Notification → Bool
  | Notification.failure _ => true
  | _ => false

/-- Is the notification a success notification. -/
def Notification.isSuccess : Notification → Bool
  | Notification.success _ => true
  | _ => false

/-- A task whose status is a lane name written without its space, in
lower case. -/
def todoTask : Task :=
  ⟨[("_id", "t1"), ("title", "Write report"), ("status", "todo")]⟩

/-- A task whose status is a lane name written with two spaces. -/
def doubleSpaceTask : Task :=
  ⟨[("_id", "t2"), ("title", "Review"), ("status", "to  do")]⟩

/-- A task whose status is the lane name `To Do` itself. -/
def plainTask : Task :=
  ⟨[("_id", "t3"), ("title", "Plan"), ("description", "Sprint"), ("status", "To Do")]⟩

/-! ## Property reads after a property write -/

theorem lookup_setProp_self (key value : String) (ps : List (String × String)) :
    (setProp key value ps).lookup key = some value := by
  induction ps with
  | nil => simp [setProp, List.lookup]
  | cons p rest ih =>
    obtain ⟨k, v⟩ := p
    by_cases h : k = key
    · simp [setProp, h, List.lookup]
    · have h2 : (key == k) = false := by
        simp only [beq_eq_false_iff_ne]; exact fun e => h e.symm
      simp [setProp, h, List.lookup, h2, ih]

theorem lookup_setProp_other (key value other : String) (ps : List (String × String))
    (hne : other ≠ key) : (setProp key value ps).lookup other = ps.lookup other := by
  induction ps with
  | nil =>
    have h2 : (other == key) = false := by simp only [beq_eq_false_iff_ne]; exact hne
    simp [setProp, List.lookup, h2]
  | cons p rest ih =>
    obtain ⟨k, v⟩ := p
    by_cases h : k = key
    · subst h
      have h2 : (other == k) = false := by simp only [beq_eq_false_iff_ne]; exact hne
      simp [setProp, List.lookup, h2]
    · simp only [setProp, h, if_false, List.lookup]
      cases other == k <;> simp [ih]

theorem status_withStatus (task : Task) (newStatus : String) :
    (task.withStatus newStatus).status = some newStatus := by
  simp [Task.withStatus, Task.status, Task.get, lookup_setProp_self]

theorem get_withStatus (task : Task) (newStatus key : String) (hne : key ≠ "status") :
    (task.withStatus newStatus).get key = task.get key := by
  simp [Task.withStatus, Task.get, lookup_setProp_other _ _ _ _ hne]


/-! ## Lane classification -/

theorem matchesStatus_of_status (task : Task) (s status : String)
    (h : task.status = some s) :
    matchesStatus status task = (normalizeStatus s == normalizeStatus status) := by
  simp [matchesStatus, h]

theorem mem_getTasksByStatus (tasks : List Task) (task : Task) (status : String) :
    task ∈ getTasksByStatus tasks status ↔ task ∈ tasks ∧ matchesStatus status task = true := by
  simp [getTasksByStatus, List.mem_filter]

/-- What the filter does guarantee: a lane contains every task whose status
has the same image as the lane name under the normalization of the code. -/
theorem getTasksByStatus_of_normalizeStatus_eq (tasks : List Task) (task : Task)
    (s L : String) (hmem : task ∈ tasks) (hs : task.status = some s)
    (hn : normalizeStatus s = normalizeStatus L) :
    task ∈ getTasksByStatus tasks L := by
  rw [mem_getTasksByStatus, matchesStatus_of_status task s L hs, hn]
  exact ⟨hmem, beq_self_eq_true _⟩

/-- The normalized names of the three lanes are pairwise different. -/
theorem lanes_normalize_injective :
    ∀ L ∈ statusColumns, ∀ M ∈ statusColumns,
      ((normalizeStatus L == normalizeStatus M) = true ↔ L = M) := by
  decide

/-- The case and spacing variants of a lane name that the board is meant to
accept are placed in lane `To Do`. -/
theorem getTasksByStatus_todo_variants :
    getTasksByStatus [⟨[("status", "to do")]⟩, ⟨[("status", "To Do")]⟩, ⟨[("status", "TODO")]⟩]
      "To Do" = [⟨[("status", "to do")]⟩, ⟨[("status", "To Do")]⟩, ⟨[("status", "TODO")]⟩] := by
  decide

/-- C1, at the failing input: the status `to  do` (two spaces) and the lane
`To Do` agree once lower-cased and stripped of all whitespace, yet
`getTasksByStatus` leaves the task out of lane `To Do`, because only the
first space of the status is removed. -/
theorem getTasksByStatus_drops_double_space :
    doubleSpaceTask.status = some "to  do" ∧
    normalizeAllWhitespace "to  do" = normalizeAllWhitespace "To Do" ∧
    normalizeStatus "to  do" = "to do" ∧
    normalizeStatus "To Do" = "todo" ∧
    getTasksByStatus [doubleSpaceTask] "To Do" = [] := by
  decide

/-- C8, at the failing input: normalizing `to  do` gives `to do`, and
normalizing that again gives `todo`, so the normalization of
`getTasksByStatus` is not idempotent. -/
theorem normalizeStatus_not_idempotent :
    normalizeStatus "to  do" = "to do" ∧
    normalizeStatus (normalizeStatus "to  do") = "todo" ∧
    normalizeStatus (normalizeStatus "to  do") ≠ normalizeStatus "to  do" := by
  decide

/-! ## handleMove -/

theorem handleMove_same (token : String) (task : Task) (X : String)
    (h : task.status = some X) :
    handleMove token task X =
      [Effect.toast (Notification.info ("Task is already in '" ++ X ++ "'"))] := by
  simp [handleMove, h]

theorem handleMove_other (token : String) (task : Task) (X : String)
    (h : task.status ≠ some X) :
    handleMove token task X =
      [Effect.dispatch
        { id := task._id
          updates := task.withStatus X
          token := token
          onSuccess := [Notification.success ("Moved to '" ++ X ++ "' successfully")] }] := by
  simp [handleMove, h]

/-- C4: a move to the status the task already has raises exactly one info
toast, whose message names the destination, and dispatches nothing. -/
theorem handleMove_noop_info (token : String) (task : Task) (X : String)
    (h : task.status = some X) :
    notifications (handleMove token task X) =
        [Notification.info ("Task is already in '" ++ X ++ "'")] ∧
      X.data <:+: ("Task is already in '" ++ X ++ "'").data ∧
      mutations (handleMove token task X) = [] := by
  rw [handleMove_same token task X h]
  refine ⟨rfl, ?_, rfl⟩
  exact ⟨"Task is already in '".data, "'".data, by simp [String.data_append]⟩

theorem handleMove_noop_info_witness :
    plainTask.status = some "To Do" ∧
      (notifications (handleMove "tok" plainTask "To Do") =
          [Notification.info ("Task is already in '" ++ "To Do" ++ "'")] ∧
        "To Do".data <:+: ("Task is already in '" ++ "To Do" ++ "'").data ∧
        mutations (handleMove "tok" plainTask "To Do") = []) :=
  ⟨by decide, handleMove_noop_info "tok" plainTask "To Do" (by decide)⟩

/-- C5: a move to a status other than the current one dispatches exactly one
store update; it carries the task's identifier, and its record has the new
status and reads like the task at every other property. -/
theorem handleMove_dispatches_update (token : String) (task : Task) (X : String)
    (h : task.status ≠ some X) :
    ∃ a, mutations (handleMove token task X) = [a] ∧
      a.id = task._id ∧
      a.updates.status = some X ∧
      ∀ key, key ≠ "status" → a.updates.get key = task.get key := by
  rw [handleMove_other token task X h]
  exact ⟨_, rfl, rfl, status_withStatus task X, fun key hk => get_withStatus task X key hk⟩

theorem handleMove_dispatches_update_witness :
    plainTask.status ≠ some "In Progress" ∧
      ∃ a, mutations (handleMove "tok" plainTask "In Progress") = [a] ∧
        a.id = plainTask._id ∧
        a.updates.status = some "In Progress" ∧
        ∀ key, key ≠ "status" → a.updates.get key = plainTask.get key :=
  ⟨by decide, handleMove_dispatches_update "tok" plainTask "In Progress" (by decide)⟩

/-- C6: when `handleMove` dispatches an update and the store reports its
failure, the user sees exactly one failure notification and no success
notification. -/
theorem handleMove_failure_notification (token : String) (task : Task) (X reason : String)
    (h : mutations (handleMove token task X) ≠ []) :
    moveNotifications token task X (StoreOutcome.failure reason) =
        [Notification.failure reason] ∧
      (moveNotifications token task X (StoreOutcome.failure reason)).countP
        Notification.isFailure = 1 ∧
      (moveNotifications token task X (StoreOutcome.failure reason)).countP
        Notification.isSuccess = 0 := by
  have hne : task.status ≠ some X := by
    intro hs
    apply h
    rw [handleMove_same token task X hs]
    rfl
  have hn : moveNotifications token task X (StoreOutcome.failure reason) =
      [Notification.failure reason] := by
    simp [moveNotifications, handleMove_other token task X hne, mutations, notifications,
      updateStatus]
  rw [hn]
  exact ⟨rfl, rfl, rfl⟩

theorem handleMove_failure_notification_witness :
    mutations (handleMove "tok" plainTask "Done") ≠ [] ∧
      (moveNotifications "tok" plainTask "Done" (StoreOutcome.failure "Network Error") =
          [Notification.failure "Network Error"] ∧
        (moveNotifications "tok" plainTask "Done" (StoreOutcome.failure "Network Error")).countP
          Notification.isFailure = 1 ∧
        (moveNotifications "tok" plainTask "Done" (StoreOutcome.failure "Network Error")).countP
          Notification.isSuccess = 0) :=
  ⟨by decide, handleMove_failure_notification "tok" plainTask "Done" "Network Error" (by decide)⟩

/-- C7: a move to a status other than the current one raises no toast at
dispatch time, and the completion callback handed to the store raises, when
invoked, exactly one success toast whose message names the destination. -/
theorem handleMove_success_callback (token : String) (task : Task) (X : String)
    (h : task.status ≠ some X) :
    notifications (handleMove token task X) = [] ∧
      ∃ a, mutations (handleMove token task X) = [a] ∧
        a.onSuccess = [Notification.success ("Moved to '" ++ X ++ "' successfully")] ∧
        X.data <:+: ("Moved to '" ++ X ++ "' successfully").data := by
  rw [handleMove_other token task X h]
  refine ⟨rfl, _, rfl, rfl, ?_⟩
  exact ⟨"Moved to '".data, "' successfully".data, by simp [String.data_append]⟩

theorem handleMove_success_callback_witness :
    plainTask.status ≠ some "Done" ∧
      (notifications (handleMove "tok" plainTask "Done") = [] ∧
        ∃ a, mutations (handleMove "tok" plainTask "Done") = [a] ∧
          a.onSuccess = [Notification.success ("Moved to '" ++ "Done" ++ "' successfully")] ∧
          "Done".data <:+: ("Moved to '" ++ "Done" ++ "' successfully").data) :=
  ⟨by decide, handleMove_success_callback "tok" plainTask "Done" (by decide)⟩

/-- C9: the record that a move to a lane other than the task's status hands
to the store is, once it is among the tasks of the board, shown in that lane
and in no other lane. -/
theorem handleMove_record_lane (token : String) (task : Task) (L : String)
    (hL : L ∈ statusColumns) (h : task.status ≠ some L) (tasks : List Task) :
    ∃ a, mutations (handleMove token task L) = [a] ∧
      (a.updates ∈ tasks →
        a.updates ∈ getTasksByStatus tasks L ∧
        ∀ M ∈ statusColumns, M ≠ L → a.updates ∉ getTasksByStatus tasks M) := by
  rw [handleMove_other token task L h]
  refine ⟨_, rfl, fun hmem => ⟨?_, fun M hM hne hin => ?_⟩⟩
  · rw [mem_getTasksByStatus]
    refine ⟨hmem, ?_⟩
    rw [matchesStatus_of_status _ L L (status_withStatus task L)]
    exact (lanes_normalize_injective L hL L hL).2 rfl
  · rw [mem_getTasksByStatus] at hin
    have hm := hin.2
    rw [matchesStatus_of_status _ L M (status_withStatus task L)] at hm
    exact hne ((lanes_normalize_injective L hL M hM).1 hm).symm

theorem handleMove_record_lane_witness :
    "In Progress" ∈ statusColumns ∧ plainTask.status ≠ some "In Progress" ∧
      ∃ a, mutations (handleMove "tok" plainTask "In Progress") = [a] ∧
        (a.updates ∈ [todoTask, plainTask.withStatus "In Progress"] →
          a.updates ∈
              getTasksByStatus [todoTask, plainTask.withStatus "In Progress"] "In Progress" ∧
            ∀ M ∈ statusColumns, M ≠ "In Progress" →
              a.updates ∉ getTasksByStatus [todoTask, plainTask.withStatus "In Progress"] M) :=
  ⟨by decide, by decide,
    handleMove_record_lane "tok" plainTask "In Progress" (by decide) (by decide)
      [todoTask, plainTask.withStatus "In Progress"]⟩

/-! ## handleDragEnd -/

/-- C10: a drag that ends with no droppable under the pointer dispatches
nothing and raises no toast, whatever was being dragged. -/
theorem handleDragEnd_no_over (token : String) (active : Option Active) :
    mutations (handleDragEnd token { active := active, over := none }) = [] ∧
      notifications (handleDragEnd token { active := active, over := none }) = [] := by
  cases active <;> exact ⟨rfl, rfl⟩

/-- C2 as stated fails: the task with status `todo` is shown in lane
`To Do`, and dropping it on `To Do` dispatches a store update. -/
theorem handleDragEnd_rendered_lane_counterexample :
    todoTask ∈ getTasksByStatus [todoTask] "To Do" ∧
      mutations (handleDragEnd "tok" { active := some ⟨todoTask⟩, over := some ⟨"To Do"⟩ }) =
        [{ id := some "t1"
           updates := ⟨[("_id", "t1"), ("title", "Write report"), ("status", "To Do")]⟩
           token := "tok"
           onSuccess := [Notification.success "Moved to 'To Do' successfully"] }] := by
  decide

/-- C2, amended: a task whose status string is identical to the name of the
drop region it is released over is shown in that lane, and the drag
dispatches nothing and raises no toast. -/
theorem handleDragEnd_same_status (token : String) (tasks : List Task) (task : Task)
    (L : String) (hmem : task ∈ tasks) (hs : task.status = some L) :
    task ∈ getTasksByStatus tasks L ∧
      mutations (handleDragEnd token { active := some ⟨task⟩, over := some ⟨L⟩ }) = [] ∧
      notifications (handleDragEnd token { active := some ⟨task⟩, over := some ⟨L⟩ }) = [] := by
  refine ⟨?_, ?_, ?_⟩
  · rw [mem_getTasksByStatus]
    refine ⟨hmem, ?_⟩
    rw [matchesStatus_of_status task L L hs]
    exact beq_self_eq_true _
  · simp [handleDragEnd, hs, mutations]
  · simp [handleDragEnd, hs, notifications]

theorem handleDragEnd_same_status_witness :
    plainTask ∈ [todoTask, plainTask] ∧ plainTask.status = some "To Do" ∧
      (plainTask ∈ getTasksByStatus [todoTask, plainTask] "To Do" ∧
        mutations (handleDragEnd "tok" { active := some ⟨plainTask⟩, over := some ⟨"To Do"⟩ })
          = [] ∧
        notifications (handleDragEnd "tok" { active := some ⟨plainTask⟩, over := some ⟨"To Do"⟩ })
          = []) :=
  ⟨by decide, by decide,
    handleDragEnd_same_status "tok" [todoTask, plainTask] plainTask "To Do" (by decide)
      (by decide)⟩

/-! ## The "Move to" buttons -/

/-- C3 as stated fails: the task with status `todo` is shown in lane
`To Do`, and its card offers a button for every lane, `To Do` included. -/
theorem moveTargets_rendered_lane_counterexample :
    todoTask ∈ getTasksByStatus [todoTask] "To Do" ∧
      "To Do" ∈ moveTargets todoTask ∧
      moveTargets todoTask = ["To Do", "In Progress", "Done"] := by
  decide

/-- C3, amended: for a task whose status string is identical to the name of
a lane, the lanes that show it are that lane alone, the buttons on its card
never offer that lane, and the offered destinations are exactly the other
lanes. -/
theorem moveTargets_same_status (tasks : List Task) (task : Task) (L : String)
    (hL : L ∈ statusColumns) (hmem : task ∈ tasks) (hs : task.status = some L) :
    (∀ M ∈ statusColumns, task ∈ getTasksByStatus tasks M ↔ M = L) ∧
      L ∉ moveTargets task ∧
      (∀ M, M ∈ moveTargets task ↔ M ∈ statusColumns ∧ M ≠ L) := by
  refine ⟨fun M hM => ?_, ?_, fun M => ?_⟩
  · rw [mem_getTasksByStatus, matchesStatus_of_status task L M hs]
    constructor
    · intro hin
      exact ((lanes_normalize_injective L hL M hM).1 hin.2).symm
    · intro hML
      exact ⟨hmem, (lanes_normalize_injective L hL M hM).2 hML.symm⟩
  · simp [moveTargets, hs]
  · simp [moveTargets, hs]

theorem moveTargets_same_status_witness :
    "To Do" ∈ statusColumns ∧ plainTask ∈ [todoTask, plainTask] ∧
      plainTask.status = some "To Do" ∧
      ((∀ M ∈ statusColumns, plainTask ∈ getTasksByStatus [todoTask, plainTask] M ↔ M = "To Do") ∧
        "To Do" ∉ moveTargets plainTask ∧
        (∀ M, M ∈ moveTargets plainTask ↔ M ∈ statusColumns ∧ M ≠ "To Do")) :=
  ⟨by decide, by decide, by decide,
    moveTargets_same_status [todoTask, plainTask] plainTask "To Do" (by decide) (by decide)
      (by decide)⟩

end TaskBoard
